import Mathlib

/-!
Verification of the jotta-backend flashcard pipeline.

The definitions below are a shallow embedding of the backend source:
text is modelled as `List Char`, the Mongo collection as a list of
records, the BullMQ queue as a list of messages, and each external
adapter call as an explicit outcome value threaded into the worker.
-/

namespace Jotta

/-- Outcome of one external adapter call: the value it returned, or the
message of the error it threw. -/
inductive Outcome (α : Type) where
  | ok (a : α)
  | err (msg : String)
  deriving DecidableEq

/-- Whitespace test matching JavaScript `String.prototype.trim`
on the characters that occur in this pipeline. -/
def isWs (c : Char) : Bool :=
  c == ' ' || c == '\t' || c == '\n' || c == '\r'

/-- JavaScript `line.trim()`: strip whitespace from both ends. -/
def trim (l : List Char) : List Char :=
  ((l.dropWhile isWs).reverse.dropWhile isWs).reverse

/-- JavaScript truthiness of `line.trim()`: the line has a
non-whitespace character. -/
def nonBlank (l : List Char) : Bool :=
  !(trim l).isEmpty

/-- JavaScript `s.split("\n")` on a character list. -/
def splitNl : List Char → List (List Char)
  | [] => [[]]
  | c :: rest =>
    if c = '\n' then [] :: splitNl rest
    else
      match splitNl rest with
      | [] => [[c]]
      | h :: t => (c :: h) :: t

/-- JavaScript `parts.join("\n")`. -/
def joinNl : List (List Char) → List Char
  | [] => []
  | [x] => x
  | x :: y :: rest => x ++ '\n' :: joinNl (y :: rest)

/-- The `maxInputLength` constant of `summarizeTranscription`. -/
def maxInputLength : Nat := 3500

/-- Fueled form of the chunking loop
`for (let i = 0; i < transcription.length; i += maxInputLength)
   chunks.push(transcription.slice(i, i + maxInputLength))`;
the fuel bounds the number of iterations, which never exceeds the
length of the text. -/
def chunkFuel : Nat → List Char → List (List Char)
  | 0, _ => []
  | _, [] => []
  | fuel + 1, c :: cs =>
    (c :: cs).take maxInputLength :: chunkFuel fuel ((c :: cs).drop maxInputLength)

/-- The chunking loop of `summarizeTranscription`: consecutive slices
of at most `maxInputLength` characters. -/
def chunkText (t : List Char) : List (List Char) :=
  chunkFuel t.length t

/-- The summarize-each-chunk-and-join part of `summarizeTranscription`:
one adapter call per chunk, each reply trimmed, results joined with
line breaks. -/
def summarizeChunks (f : List Char → List Char) (chunks : List (List Char)) : List Char :=
  joinNl (chunks.map (fun c => trim (f c)))

/-- `summarizeTranscription`: chunk the transcript, summarize each
chunk with the adapter `f`, join the summaries with line breaks. -/
def summarizeTranscription (f : List Char → List Char) (t : List Char) : List Char :=
  summarizeChunks f (chunkText t)

/-- Number of Summarization Adapter invocations made by
`summarizeTranscription`: one per chunk. -/
def summarizeCalls (t : List Char) : Nat :=
  (chunkText t).length

/-- Flashcard parsing of the worker processors:
`summary.split("\n").filter((line) => line.trim())`, each kept line
becoming one card with its text unchanged. -/
def parseFlashcards (s : List Char) : List (List Char) :=
  (splitNl s).filter nonBlank

/-- The AssemblyAI `summary` field: either an array of bullet strings
or one string. -/
inductive TSummary where
  | arr (items : List (List Char))
  | str (s : List Char)
  deriving DecidableEq

/-- Flashcard mapping of `transcribeAndSummarize`:
`Array.isArray(summary) ? summary.map(item => ({content: item}))
 : summary.split("\n").map(line => ({content: line.trim()}))`. -/
def assemblyFlashcards : TSummary → List (List Char)
  | .arr items => items
  | .str s => (splitNl s).map trim

/-! ### Chunking lemmas -/

theorem length_drop_chunk_le (c : Char) (cs : List Char) :
    ((c :: cs).drop maxInputLength).length ≤ cs.length := by
  simp only [List.length_drop, List.length_cons, maxInputLength]
  omega

theorem chunkFuel_stable (f1 : Nat) :
    ∀ (f2 : Nat) (l : List Char), l.length ≤ f1 → l.length ≤ f2 →
      chunkFuel f1 l = chunkFuel f2 l := by
  induction f1 with
  | zero =>
    intro f2 l h1 _
    have : l = [] := List.length_eq_zero.mp (Nat.le_zero.mp h1)
    subst this
    cases f2 <;> rfl
  | succ n ih =>
    intro f2 l h1 h2
    cases l with
    | nil => cases f2 <;> rfl
    | cons c cs =>
      cases f2 with
      | zero => exact absurd h2 (by simp)
      | succ m =>
        simp only [chunkFuel]
        congr 1
        apply ih
        · exact Nat.le_trans (length_drop_chunk_le c cs) (Nat.le_of_succ_le_succ h1)
        · exact Nat.le_trans (length_drop_chunk_le c cs) (Nat.le_of_succ_le_succ h2)

theorem chunkText_nil : chunkText [] = [] := rfl

theorem chunkText_cons (c : Char) (cs : List Char) :
    chunkText (c :: cs) =
      (c :: cs).take maxInputLength :: chunkText ((c :: cs).drop maxInputLength) := by
  simp only [chunkText, List.length_cons, chunkFuel]
  congr 1
  exact chunkFuel_stable _ _ _ (length_drop_chunk_le c cs) (Nat.le_refl _)

theorem chunkFuel_flatten : ∀ (fuel : Nat) (l : List Char), l.length ≤ fuel →
    (chunkFuel fuel l).flatten = l := by
  intro fuel
  induction fuel with
  | zero =>
    intro l h
    have : l = [] := List.length_eq_zero.mp (Nat.le_zero.mp h)
    subst this; rfl
  | succ n ih =>
    intro l h
    cases l with
    | nil => rfl
    | cons c cs =>
      simp only [chunkFuel, List.flatten_cons]
      rw [ih _ (Nat.le_trans (length_drop_chunk_le c cs) (Nat.le_of_succ_le_succ h))]
      exact List.take_append_drop _ _

theorem chunkText_flatten (t : List Char) : (chunkText t).flatten = t :=
  chunkFuel_flatten _ _ (Nat.le_refl _)

theorem chunkFuel_getD : ∀ (fuel : Nat) (l : List Char), l.length ≤ fuel → ∀ (k : Nat),
    (chunkFuel fuel l).getD k [] = (l.drop (maxInputLength * k)).take maxInputLength := by
  intro fuel
  induction fuel with
  | zero =>
    intro l h k
    have : l = [] := List.length_eq_zero.mp (Nat.le_zero.mp h)
    subst this
    cases k <;> simp [chunkFuel, List.getD]
  | succ n ih =>
    intro l h k
    cases l with
    | nil => cases k <;> simp [chunkFuel, List.getD]
    | cons c cs =>
      cases k with
      | zero => simp [chunkFuel, List.getD]
      | succ k =>
        simp only [chunkFuel, List.getD_cons_succ]
        rw [ih _ (Nat.le_trans (length_drop_chunk_le c cs) (Nat.le_of_succ_le_succ h)) k,
          List.drop_drop]
        congr 2
        rw [Nat.mul_succ]
        omega

theorem chunkText_getD (t : List Char) (k : Nat) :
    (chunkText t).getD k [] = (t.drop (maxInputLength * k)).take maxInputLength :=
  chunkFuel_getD _ _ (Nat.le_refl _) k

theorem chunkText_getD_length_le (t : List Char) (k : Nat) :
    ((chunkText t).getD k []).length ≤ maxInputLength := by
  rw [chunkText_getD]
  exact List.length_take_le _ _

theorem chunkText_replicate_4000 :
    chunkText (List.replicate 4000 'a') = [List.replicate 3500 'a', List.replicate 500 'a'] := by
  have h1 : List.replicate 4000 'a' = 'a' :: List.replicate 3999 'a' := List.replicate_succ _ _
  rw [h1, chunkText_cons, ← h1]
  have htake : (List.replicate 4000 'a').take maxInputLength = List.replicate 3500 'a' := by
    rw [List.take_replicate]; norm_num [maxInputLength]
  have hdrop : (List.replicate 4000 'a').drop maxInputLength = List.replicate 500 'a' := by
    rw [List.drop_replicate]; norm_num [maxInputLength]
  rw [htake, hdrop]
  have h2 : List.replicate 500 'a' = 'a' :: List.replicate 499 'a' := List.replicate_succ _ _
  rw [h2, chunkText_cons, ← h2]
  have htake2 : (List.replicate 500 'a').take maxInputLength = List.replicate 500 'a' := by
    rw [List.take_replicate]; norm_num [maxInputLength]
  have hdrop2 : (List.replicate 500 'a').drop maxInputLength = List.replicate 0 'a' := by
    rw [List.drop_replicate]; norm_num [maxInputLength]
  rw [htake2, hdrop2]
  rfl

/-! ### Split and join lemmas -/

theorem splitNl_ne_nil : ∀ (l : List Char), splitNl l ≠ [] := by
  intro l
  induction l with
  | nil => simp [splitNl]
  | cons c rest ih =>
    simp only [splitNl]
    split
    · simp
    · match h : splitNl rest with
      | [] => exact absurd h ih
      | x :: xs => simp

theorem splitNl_append : ∀ (a b : List Char),
    splitNl (a ++ '\n' :: b) = splitNl a ++ splitNl b := by
  intro a b
  induction a with
  | nil => simp [splitNl]
  | cons c rest ih =>
    by_cases hc : c = '\n'
    · subst hc
      simp only [List.cons_append, splitNl, if_pos rfl, List.append_eq]
      rw [ih]
      rfl
    · simp only [List.cons_append, splitNl, if_neg hc, List.append_eq]
      rw [ih]
      match h : splitNl rest with
      | [] => exact absurd h (splitNl_ne_nil rest)
      | x :: xs => simp

theorem parseFlashcards_append (a b : List Char) :
    parseFlashcards (a ++ '\n' :: b) = parseFlashcards a ++ parseFlashcards b := by
  simp only [parseFlashcards, splitNl_append, List.filter_append]

theorem parseFlashcards_nil : parseFlashcards [] = [] := rfl

theorem parseFlashcards_joinNl : ∀ (l : List (List Char)),
    parseFlashcards (joinNl l) = (l.map parseFlashcards).flatten := by
  intro l
  induction l with
  | nil => rfl
  | cons x xs ih =>
    cases xs with
    | nil => simp [joinNl]
    | cons y rest =>
      simp only [joinNl, List.map_cons, List.flatten_cons]
      rw [parseFlashcards_append, ih]
      simp [List.flatten_cons]

/-! ### Queue-based pipeline (routes/youtube.js)

The BullMQ queue is a list of messages, the Mongo collection a list of
records (the schema of this variant has no status field), and each
external call an `Outcome` supplied by the environment. -/

/-- Persisted Job Record of the queue variant: the schema fields the
worker writes (no status field exists in this schema). -/
structure JobRecord where
  videoId : String
  userId : String
  title : String
  flashcards : List (List Char)
  deriving DecidableEq

/-- Pipeline Job Message: the payload of `flashcardsQueue.add`. -/
structure QMsg where
  videoId : String
  userId : String
  deriving DecidableEq

/-- Server state seen by the routes: the record collection and the
queue contents. -/
structure QState where
  records : List JobRecord
  queue : List QMsg
  deriving DecidableEq

/-- `YouTubeVideo.findOne({ videoId, userId })`. -/
def findOne (records : List JobRecord) (videoId userId : String) : Option JobRecord :=
  records.find? (fun r => r.videoId == videoId && r.userId == userId)

/-- Responses of the `POST /generate` handler. -/
inductive SubmitResult where
  | missingId
  | duplicate
  | accepted
  deriving DecidableEq

/-- The `POST /generate` handler: reject a missing videoId, reject when
any record exists for (videoId, userId), otherwise enqueue a message.
No record is written here. -/
def submit (st : QState) (videoId userId : String) : QState × SubmitResult :=
  if videoId = "" then (st, .missingId)
  else if (findOne st.records videoId userId).isSome then (st, .duplicate)
  else ({ st with queue := st.queue ++ [⟨videoId, userId⟩] }, .accepted)

/-- Retry options a BullMQ `add` call could carry. -/
structure JobRetryOpts where
  attempts : Nat
  backoffMs : Nat
  deriving DecidableEq

/-- The options passed by `flashcardsQueue.add("generateFlashcards",
{videoId, userId})`: the call passes no options object at all. -/
def generateJobOpts : Option JobRetryOpts := none

/-- Path of the temporary audio file for a video:
`path.resolve(__dirname, ../temp/videoId.mp3)`. -/
def tempPath (videoId : String) : String :=
  "../temp/" ++ videoId ++ ".mp3"

/-- Environment of the OpenAI worker processor: the outcome of each
external call it makes, in order. -/
structure W1Env where
  videoDetails : Outcome (String × String × String)
  download : Outcome Unit
  transcription : Outcome (List Char)
  summary : Outcome (List Char)
  deriving DecidableEq

/-- Result of one worker run: the record collection, the temporary
files still on disk, and the thrown error or returned message. -/
structure W1Out where
  records : List JobRecord
  tempFiles : List String
  outcome : Outcome Unit
  deriving DecidableEq

/-- Whether every stage of a `W1Env` succeeds. -/
def envOk (env : W1Env) : Bool :=
  match env.videoDetails, env.download, env.transcription, env.summary with
  | .ok _, .ok _, .ok _, .ok _ => true
  | _, _, _, _ => false

/-- The record the OpenAI worker saves on success. -/
def savedRecord (env : W1Env) (m : QMsg) : JobRecord :=
  { videoId := m.videoId
    userId := m.userId
    title := match env.videoDetails with | .ok (t, _, _) => t | .err _ => ""
    flashcards := match env.summary with | .ok s => parseFlashcards s | .err _ => [] }

/-- The OpenAI worker processor (routes/youtube.js, first variant):
fetch details, download audio, transcribe, summarize, parse flashcards,
save a new record, then unlink the audio file; the catch block only
rethrows, so a failure after the download leaves the file on disk. -/
def processW1 (env : W1Env) (records : List JobRecord) (m : QMsg) : W1Out :=
  match env.videoDetails with
  | .err e => ⟨records, [], .err e⟩
  | .ok _ =>
    match env.download with
    | .err e => ⟨records, [], .err e⟩
    | .ok _ =>
      match env.transcription with
      | .err e => ⟨records, [tempPath m.videoId], .err e⟩
      | .ok _ =>
        match env.summary with
        | .err e => ⟨records, [tempPath m.videoId], .err e⟩
        | .ok _ => ⟨records ++ [savedRecord env m], [], .ok ()⟩

/-! ### AssemblyAI worker (routes/youtube.js, second variant) -/

/-- Status reported by one AssemblyAI transcript poll. -/
inductive TStatus where
  | pending
  | completed (summary : TSummary)
  | failed
  deriving DecidableEq

/-- Milliseconds slept between two transcript polls:
`setTimeout(resolve, 5000)`. -/
def sleepMsPerPoll : Nat := 5000

/-- The `while (true)` transcript poll loop, evaluated with fuel:
poll `i`, return on a terminal status, otherwise sleep and poll again.
The returned number is the index of the exiting poll, which equals the
number of 5-second sleeps executed before it; `none` means the fuel ran
out with the loop still running. -/
def pollFrom (statuses : Nat → TStatus) (i : Nat) : Nat → Option (Outcome TSummary × Nat)
  | 0 => none
  | fuel + 1 =>
    match statuses i with
    | .completed s => some (.ok s, i)
    | .failed => some (.err "AssemblyAI transcription failed.", i)
    | .pending => pollFrom statuses (i + 1) fuel

/-- The poll loop started at the first poll. -/
def pollLoop (statuses : Nat → TStatus) (fuel : Nat) : Option (Outcome TSummary × Nat) :=
  pollFrom statuses 0 fuel

/-- Environment of the AssemblyAI worker processor. -/
structure W2Env where
  videoDetails : Outcome (String × String)
  download : Outcome Unit
  upload : Outcome Unit
  statuses : Nat → TStatus

/-- Result of one AssemblyAI worker run; `enqueued` is the list of
messages the processor itself added to the queue (it never adds any). -/
structure W2Out where
  records : List JobRecord
  tempFiles : List String
  enqueued : List QMsg
  outcome : Outcome Unit
  deriving DecidableEq

/-- The AssemblyAI worker processor: fetch details, download audio,
upload and poll `transcribeAndSummarize`, save a record built from the
summary, unlink the file; the catch block only rethrows. `none` means
the poll loop was still running when the fuel ran out. -/
def processW2 (env : W2Env) (fuel : Nat) (records : List JobRecord) (m : QMsg) :
    Option W2Out :=
  match env.videoDetails with
  | .err e => some ⟨records, [], [], .err e⟩
  | .ok (title, _) =>
    match env.download with
    | .err e => some ⟨records, [], [], .err e⟩
    | .ok _ =>
      match env.upload with
      | .err e => some ⟨records, [tempPath m.videoId], [], .err e⟩
      | .ok _ =>
        match pollLoop env.statuses fuel with
        | none => none
        | some (.err e, _) => some ⟨records, [tempPath m.videoId], [], .err e⟩
        | some (.ok summary, _) =>
            some ⟨records ++
              [{ videoId := m.videoId, userId := m.userId, title := title,
                 flashcards := assemblyFlashcards summary }],
              [], [], .ok ()⟩

/-! ### Status-tracking variant (part_003 route + part_001 schema) -/

/-- The status enum of the YouTubeVideoSchema with a status field. -/
inductive Status3 where
  | pending
  | transcribing
  | completed
  | failed
  deriving DecidableEq

/-- Job Record of the status-tracking variant. -/
structure Rec3 where
  videoId : String
  userId : String
  flashcards : List (List Char)
  status : Status3
  error : Option String
  deriving DecidableEq

/-- Environment of `transcribeAndGenerateFlashcards`: the outcome of
the audio-URL resolution, the audio download, the transcription call
and the summarization call. -/
structure Env3 where
  audioUrl : Outcome Unit
  download : Outcome Unit
  transcription : Outcome (List Char)
  summary : Outcome (List Char)
  deriving DecidableEq

/-- Result of one `transcribeAndGenerateFlashcards` run: the sequence
of record states saved to the database in order, invocation counts of
the resolver and transcription calls, and the temporary audio files
left on disk. -/
structure Run3Out where
  trace : List Rec3
  resolverCalls : Nat
  transcriptionCalls : Nat
  tempFiles : List String
  deriving DecidableEq

/-- `transcribeAndGenerateFlashcards` (part_003): save the record at
`transcribing`, resolve the audio URL, download, transcribe, summarize,
then save flashcards together with status `completed` in one save; any
thrown error is caught and the record saved at `failed` with the error
message. The catch path does not unlink the audio file. -/
def run3 (r : Rec3) (env : Env3) : Run3Out :=
  let r1 : Rec3 := { r with status := .transcribing }
  match env.audioUrl with
  | .err e => ⟨[r1, { r1 with status := .failed, error := some e }], 1, 0, []⟩
  | .ok _ =>
    match env.download with
    | .err e => ⟨[r1, { r1 with status := .failed, error := some e }], 1, 0,
        [tempPath r.videoId]⟩
    | .ok _ =>
      match env.transcription with
      | .err e => ⟨[r1, { r1 with status := .failed, error := some e }], 1, 1,
          [tempPath r.videoId]⟩
      | .ok _ =>
        match env.summary with
        | .err e => ⟨[r1, { r1 with status := .failed, error := some e }], 1, 1,
            [tempPath r.videoId]⟩
        | .ok s =>
            ⟨[r1, { r1 with flashcards := parseFlashcards s, status := .completed }],
              1, 1, []⟩

/-! ### Poll loop lemmas -/

theorem pollFrom_none_of_pending (statuses : Nat → TStatus)
    (h : ∀ i, statuses i = .pending) :
    ∀ (fuel j : Nat), pollFrom statuses j fuel = none := by
  intro fuel
  induction fuel with
  | zero => intro j; rfl
  | succ f ih =>
    intro j
    simp only [pollFrom, h j]
    exact ih (j + 1)

theorem pollFrom_exit_completed :
    ∀ (n : Nat) (statuses : Nat → TStatus) (j fuel : Nat) (s : TSummary),
      (∀ i, i < n → statuses (j + i) = .pending) → statuses (j + n) = .completed s →
      n < fuel → pollFrom statuses j fuel = some (.ok s, j + n) := by
  intro n
  induction n with
  | zero =>
    intro statuses j fuel s _ hterm hf
    cases fuel with
    | zero => omega
    | succ f =>
      have hj : statuses j = .completed s := by simpa using hterm
      simp [pollFrom, hj]
  | succ k ih =>
    intro statuses j fuel s hpend hterm hf
    cases fuel with
    | zero => omega
    | succ f =>
      have h0 : statuses j = .pending := by simpa using hpend 0 (Nat.succ_pos k)
      simp only [pollFrom, h0]
      have harith : ∀ i : Nat, j + 1 + i = j + (i + 1) := by intro i; omega
      have := ih statuses (j + 1) f s
        (fun i hi => by rw [harith i]; exact hpend (i + 1) (Nat.succ_lt_succ hi))
        (by rw [harith k]; exact hterm)
        (Nat.lt_of_succ_lt_succ hf)
      rw [this, harith k]

theorem pollFrom_exit_failed :
    ∀ (n : Nat) (statuses : Nat → TStatus) (j fuel : Nat),
      (∀ i, i < n → statuses (j + i) = .pending) → statuses (j + n) = .failed →
      n < fuel →
      pollFrom statuses j fuel = some (.err "AssemblyAI transcription failed.", j + n) := by
  intro n
  induction n with
  | zero =>
    intro statuses j fuel _ hterm hf
    cases fuel with
    | zero => omega
    | succ f =>
      have hj : statuses j = .failed := by simpa using hterm
      simp [pollFrom, hj]
  | succ k ih =>
    intro statuses j fuel hpend hterm hf
    cases fuel with
    | zero => omega
    | succ f =>
      have h0 : statuses j = .pending := by simpa using hpend 0 (Nat.succ_pos k)
      simp only [pollFrom, h0]
      have harith : ∀ i : Nat, j + 1 + i = j + (i + 1) := by intro i; omega
      have := ih statuses (j + 1) f
        (fun i hi => by rw [harith i]; exact hpend (i + 1) (Nat.succ_lt_succ hi))
        (by rw [harith k]; exact hterm)
        (Nat.lt_of_succ_lt_succ hf)
      rw [this, harith k]

/-! ### Claim theorems -/

/-- C4: summarization splits the transcript into consecutive chunks of
at most 3500 characters, chunk k covering characters 3500·k up to
3500·(k+1); the concatenation of the chunks is the original
transcript; the Summarization Adapter is invoked once per chunk, so a
4000-character transcript yields exactly 2 invocations; the chunk
summaries are joined with line breaks. -/
theorem summarize_chunking_spec (t : List Char) (f : List Char → List Char) (k : Nat) :
    (chunkText t).flatten = t ∧
    (chunkText t).getD k [] = (t.drop (maxInputLength * k)).take maxInputLength ∧
    ((chunkText t).getD k []).length ≤ maxInputLength ∧
    summarizeCalls (List.replicate 4000 'a') = 2 ∧
    summarizeTranscription f (List.replicate 4000 'a') =
      trim (f (List.replicate 3500 'a')) ++ '\n' :: trim (f (List.replicate 500 'a')) := by
  refine ⟨chunkText_flatten t, chunkText_getD t k, chunkText_getD_length_le t k, ?_, ?_⟩
  · rw [summarizeCalls, chunkText_replicate_4000]
    rfl
  · rw [summarizeTranscription, chunkText_replicate_4000]
    rfl

/-- C5: chunked summarization followed by reassembly preserves chunk
order: for chunks [c1, c2, c3] the reassembled summary lists the chunk
summaries in that order, and the flashcard list is the concatenation of
each chunk summary's flashcards in the same order. -/
theorem chunk_order_preserved (f : List Char → List Char) (c1 c2 c3 t : List Char) :
    summarizeChunks f [c1, c2, c3] =
      trim (f c1) ++ '\n' :: (trim (f c2) ++ '\n' :: trim (f c3)) ∧
    parseFlashcards (summarizeChunks f [c1, c2, c3]) =
      parseFlashcards (trim (f c1)) ++ parseFlashcards (trim (f c2)) ++
        parseFlashcards (trim (f c3)) ∧
    parseFlashcards (summarizeTranscription f t) =
      ((chunkText t).map (fun c => parseFlashcards (trim (f c)))).flatten := by
  refine ⟨rfl, ?_, ?_⟩
  · rw [summarizeChunks, parseFlashcards_joinNl]
    simp [List.append_assoc]
  · rw [summarizeTranscription, summarizeChunks, parseFlashcards_joinNl, List.map_map]
    rfl

/-- C6 counterexample: the AssemblyAI string-summary branch maps every
line through trim and keeps blank lines, so on the text " a\n\nb" it
produces a blank flashcard and changes the line " a" to "a",
contradicting drop-blank-lines and no-further-transformation; the
worker-processor parse on the same text drops the blank line and keeps
the lines unchanged. -/
theorem assembly_parse_counterexample :
    assemblyFlashcards (.str [' ', 'a', '\n', '\n', 'b']) = [['a'], [], ['b']] ∧
    parseFlashcards [' ', 'a', '\n', '\n', 'b'] = [[' ', 'a'], ['b']] := by
  decide

/-- C6 amended: the worker-processor parse splits on line breaks, drops
blank lines and keeps each remaining line unchanged — on input with no
blank lines the cards are exactly the lines, so their count equals the
line count; the AssemblyAI string-summary branch instead keeps every
line (count equal to line count even with blanks) but trims each
line. -/
theorem flashcard_parse_amended (s : List Char) :
    ((splitNl s).all nonBlank → parseFlashcards s = splitNl s) ∧
    (assemblyFlashcards (.str s)).length = (splitNl s).length := by
  constructor
  · intro h
    rw [parseFlashcards]
    exact List.filter_eq_self.mpr (List.all_eq_true.mp h)
  · rw [assemblyFlashcards]
    exact List.length_map _ _

/-- C6 amended witness at the two-line text "a\nb". -/
theorem flashcard_parse_amended_witness :
    parseFlashcards ['a', '\n', 'b'] = splitNl ['a', '\n', 'b'] :=
  (flashcard_parse_amended ['a', '\n', 'b']).1 (by decide)

/-- C8: the transcript poll loop sleeps a fixed 5 seconds between
consecutive polls, returns exactly when the adapter reports a terminal
status (completed or failed) and then has slept once per preceding
pending poll, and if the adapter reports pending forever the loop never
exits, for any amount of fuel. -/
theorem poll_loop_spec (statuses : Nat → TStatus) (fuel n : Nat) (s : TSummary) :
    sleepMsPerPoll = 5000 ∧
    ((∀ i, statuses i = .pending) → pollLoop statuses fuel = none) ∧
    ((∀ i, i < n → statuses i = .pending) → statuses n = .completed s → n < fuel →
      pollLoop statuses fuel = some (.ok s, n)) ∧
    ((∀ i, i < n → statuses i = .pending) → statuses n = .failed → n < fuel →
      pollLoop statuses fuel = some (.err "AssemblyAI transcription failed.", n)) := by
  refine ⟨rfl, ?_, ?_, ?_⟩
  · intro h
    exact pollFrom_none_of_pending statuses h fuel 0
  · intro hpend hterm hf
    have := pollFrom_exit_completed n statuses 0 fuel s
      (fun i hi => by simpa using hpend i hi) (by simpa using hterm) hf
    simpa [pollLoop] using this
  · intro hpend hterm hf
    have := pollFrom_exit_failed n statuses 0 fuel
      (fun i hi => by simpa using hpend i hi) (by simpa using hterm) hf
    simpa [pollLoop] using this

/-- C8 witness: with two pending polls then completion the loop exits
at poll index 2 after two sleeps, and with a forever-pending adapter it
is still running after any number of polls. -/
theorem poll_loop_spec_witness :
    pollLoop (fun i => if i < 2 then TStatus.pending else .completed (.arr [])) 5 =
      some (.ok (.arr []), 2) ∧
    pollLoop (fun _ => TStatus.pending) 3 = none := by
  constructor
  · exact (poll_loop_spec (fun i => if i < 2 then TStatus.pending else .completed (.arr []))
      5 2 (.arr [])).2.2.1
      (fun i hi => by simp [hi]) (by simp) (by decide)
  · exact (poll_loop_spec (fun _ => TStatus.pending) 3 0 (.arr [])).2.1 (fun i => rfl)

/-- C1 counterexample: on an empty store, submitting the same
(videoId, userId) twice is accepted both times — the second call does
not fail with a duplicate error — and after both calls zero Job
Records exist, not exactly one. -/
theorem submit_twice_counterexample :
    (submit (submit ⟨[], []⟩ "abc" "u1").1 "abc" "u1").2 = SubmitResult.accepted ∧
    (submit (submit ⟨[], []⟩ "abc" "u1").1 "abc" "u1").1.records.length = 0 := by
  decide

/-- C1 amended: submit never writes a Job Record; it rejects as a
duplicate exactly when any record already exists for
(videoId, userId), regardless of status, and otherwise only enqueues a
Pipeline Job Message. -/
theorem submit_duplicate_policy (st : QState) (v u : String) :
    (submit st v u).1.records = st.records ∧
    (v ≠ "" → ((submit st v u).2 = .duplicate ↔ (findOne st.records v u).isSome = true)) ∧
    (v ≠ "" → (findOne st.records v u).isSome = false →
      (submit st v u).2 = .accepted ∧ (submit st v u).1.queue = st.queue ++ [⟨v, u⟩]) := by
  refine ⟨?_, ?_, ?_⟩
  · rw [submit]
    split
    · rfl
    · split <;> rfl
  · intro hv
    rw [submit, if_neg hv]
    split
    · simp_all
    · simp_all
  · intro hv hnone
    rw [submit, if_neg hv]
    rw [hnone]
    exact ⟨rfl, rfl⟩

/-- C1 amended witness: a fresh submission on the empty store is
accepted and enqueues one message. -/
theorem submit_duplicate_policy_witness :
    (submit ⟨[], []⟩ "abc" "u1").2 = SubmitResult.accepted ∧
    (submit ⟨[], []⟩ "abc" "u1").1.queue = [] ++ [⟨"abc", "u1"⟩] :=
  (submit_duplicate_policy ⟨[], []⟩ "abc" "u1").2.2 (by decide) (by decide)

/-- C2 counterexample: the queue add call carries no retry options, and
a run whose transcript polling reports failed throws immediately on the
first poll, re-enqueues nothing, and writes no Job Record at all — in
particular no record is set to a failed status with error detail. -/
theorem retry_policy_counterexample :
    generateJobOpts = none ∧
    processW2 ⟨.ok ("t", "th"), .ok (), .ok (), fun _ => .failed⟩ 1 [] ⟨"v1", "u1"⟩ =
      some ⟨[], [tempPath "v1"], [], .err "AssemblyAI transcription failed."⟩ :=
  ⟨rfl, rfl⟩

/-- C2 amended: when the Transcription Adapter reports failed, the
worker throws "AssemblyAI transcription failed." at the first poll,
after any number of polls worth of fuel; it does not re-enqueue the
message, writes no record, leaves the temporary audio file on disk,
and no attempt ceiling or backoff is configured on the queue add
call (the 5-second delay is the poll interval, not a retry backoff). -/
theorem retry_policy_amended (td : String × String) (recs : List JobRecord)
    (m : QMsg) (f : Nat) :
    generateJobOpts = none ∧
    sleepMsPerPoll = 5000 ∧
    processW2 ⟨.ok td, .ok (), .ok (), fun _ => .failed⟩ (f + 1) recs m =
      some ⟨recs, [tempPath m.videoId], [], .err "AssemblyAI transcription failed."⟩ := by
  obtain ⟨t, th⟩ := td
  exact ⟨rfl, rfl, rfl⟩

/-- C3: every state `transcribeAndGenerateFlashcards` persists for a
record that started with empty flashcards has flashcards populated only
when its status is completed, and on an all-stages-successful run the
persisted sequence is exactly the transcribing state followed by one
save that writes the flashcards together with status completed. -/
theorem completed_write_atomic (r : Rec3) (env : Env3) (txt sum : List Char) :
    (r.flashcards = [] → ∀ s ∈ (run3 r env).trace, s.flashcards ≠ [] →
      s.status = .completed) ∧
    (run3 r ⟨.ok (), .ok (), .ok txt, .ok sum⟩).trace =
      [{ r with status := .transcribing },
       { r with status := .completed, flashcards := parseFlashcards sum }] := by
  constructor
  · intro hr s hs hfc
    obtain ⟨au, dl, tr, su⟩ := env
    cases au <;> cases dl <;> cases tr <;> cases su <;>
      simp only [run3, List.mem_cons, List.not_mem_nil, or_false] at hs <;>
      rcases hs with h | h <;> subst h <;> simp_all
  · rfl

/-- C3 witness: a run of the pipeline on a fresh record with a
one-line summary persists the flashcards only in the completed state. -/
theorem completed_write_atomic_witness :
    ({ videoId := "v", userId := "u", flashcards := parseFlashcards ['x'],
       status := .completed, error := none } : Rec3).status = Status3.completed :=
  (completed_write_atomic ⟨"v", "u", [], .pending, none⟩
    ⟨.ok (), .ok (), .ok ['t'], .ok ['x']⟩ ['t'] ['x']).1
    rfl _ (by decide) (by decide)

/-- C7: when the resolver step throws (for example because the video
does not exist), the run saves the record as failed immediately with
the error message stored, having invoked the resolver exactly once and
the transcription adapter zero times — no retries. -/
theorem notfound_immediate_failure (r : Rec3) (e : String) (env : Env3) :
    run3 r { env with audioUrl := .err e } =
      ⟨[{ r with status := .transcribing },
        { r with status := .failed, error := some e }], 1, 0, []⟩ :=
  rfl

/-- C9 counterexample: a worker run whose transcription call throws
ends in a thrown error (a terminal failed outcome for the job) with the
temporary audio file for that job still on disk. -/
theorem cleanup_counterexample :
    (processW1 ⟨.ok ("t", "th", "d"), .ok (), .err "whisper error", .ok []⟩
      [] ⟨"v1", "u1"⟩).outcome = .err "whisper error" ∧
    (processW1 ⟨.ok ("t", "th", "d"), .ok (), .err "whisper error", .ok []⟩
      [] ⟨"v1", "u1"⟩).tempFiles = [tempPath "v1"] :=
  ⟨rfl, rfl⟩

/-- C9 amended: in both the queue worker and the status-tracking
pipeline the temporary audio file is removed only on the fully
successful path — for every environment, once the download has
happened, any later failure (transcription or summarization, and in
the status-tracking pipeline also a failing download whose write
stream was already opened) leaves the file on disk, while a failure
before the file exists leaves nothing behind. -/
theorem cleanup_amended (env : W1Env) (recs : List JobRecord) (m : QMsg)
    (r : Rec3) (env3 : Env3) :
    (processW1 env recs m).tempFiles =
      (match env.videoDetails, env.download with
       | .ok _, .ok _ => if envOk env then [] else [tempPath m.videoId]
       | _, _ => []) ∧
    (run3 r env3).tempFiles =
      (match env3.audioUrl, env3.download, env3.transcription, env3.summary with
       | .ok _, .ok _, .ok _, .ok _ => []
       | .ok _, _, _, _ => [tempPath r.videoId]
       | .err _, _, _, _ => []) := by
  constructor
  · obtain ⟨vd, dl, tr, su⟩ := env
    cases vd <;> cases dl <;> cases tr <;> cases su <;> simp [processW1, envOk]
  · obtain ⟨au, dl, tr, su⟩ := env3
    cases au <;> cases dl <;> cases tr <;> cases su <;> simp [run3]

/-- C10: submit persists no Job Record and leaves reads unchanged; the
worker writes a record only when every stage succeeds; and while no
record exists for a pair, a read-by-key finds nothing and a second
submit for the same pair is accepted and enqueues another message. -/
theorem no_record_until_success (st : QState) (v u : String) (env : W1Env)
    (recs : List JobRecord) (m : QMsg) :
    (submit st v u).1.records = st.records ∧
    (processW1 env recs m).records =
      (if envOk env then recs ++ [savedRecord env m] else recs) ∧
    findOne (submit st v u).1.records v u = findOne st.records v u ∧
    (v ≠ "" → findOne st.records v u = none →
      (submit st v u).2 = .accepted ∧
      (submit (submit st v u).1 v u).2 = .accepted ∧
      (submit (submit st v u).1 v u).1.queue = st.queue ++ [⟨v, u⟩, ⟨v, u⟩]) := by
  have hrec : (submit st v u).1.records = st.records := by
    rw [submit]
    split
    · rfl
    · split <;> rfl
  refine ⟨hrec, ?_, by rw [hrec], ?_⟩
  · obtain ⟨vd, dl, tr, su⟩ := env
    cases vd <;> cases dl <;> cases tr <;> cases su <;> simp [processW1, envOk]
  · intro hv hnone
    have h1 : (submit st v u).2 = .accepted ∧ (submit st v u).1.queue = st.queue ++ [⟨v, u⟩] := by
      rw [submit, if_neg hv, hnone]
      exact ⟨rfl, rfl⟩
    have h2 : (submit (submit st v u).1 v u).2 = .accepted ∧
        (submit (submit st v u).1 v u).1.queue = (submit st v u).1.queue ++ [⟨v, u⟩] := by
      rw [submit, if_neg hv, hrec, hnone]
      exact ⟨rfl, rfl⟩
    refine ⟨h1.1, h2.1, ?_⟩
    rw [h2.2, h1.2, List.append_assoc]
    rfl

/-- C10 witness: on the empty store, two submissions of the same pair
are both accepted and leave two messages and no record. -/
theorem no_record_until_success_witness :
    (submit ⟨[], []⟩ "abc" "u1").2 = SubmitResult.accepted ∧
    (submit (submit ⟨[], []⟩ "abc" "u1").1 "abc" "u1").2 = SubmitResult.accepted ∧
    (submit (submit ⟨[], []⟩ "abc" "u1").1 "abc" "u1").1.queue =
      [] ++ [⟨"abc", "u1"⟩, ⟨"abc", "u1"⟩] :=
  (no_record_until_success ⟨[], []⟩ "abc" "u1"
    ⟨.ok ("t", "th", "d"), .ok (), .ok [], .ok []⟩ [] ⟨"abc", "u1"⟩).2.2.2
    (by decide) (by decide)

end Jotta
